import Mathlib

/-!
Verification of the `MessagePool` fixed-capacity object pool
(`include/message_pool.h`).

The C++ class is embedded shallowly: the pool's fields become a Lean
structure, each method becomes a pure function returning the method's
result together with the post-state, and a thrown `std::runtime_error`
becomes an `Except.error` value paired with the unchanged pool (the C++
methods throw before mutating any field).  The blocking wait in `borrow`
is modelled at a quiescent point with no concurrent threads: the
condition-variable predicate `!freeList_.empty()` is checked directly,
and a wait that would elapse its timeout (the free list stays empty)
becomes the timeout error.
-/

set_option autoImplicit false

namespace MessagePoolModel

/-- `NetworkMessage` (message_pool.h lines 8-11): `int id` used by the pool
for tracking, plus an opaque payload buffer `char data[256]`. -/
structure NetworkMessage where
  id : Int
  data : List UInt8
deriving Repr, DecidableEq

/-- The fields of `class MessagePool` (lines 60-66): `poolSize_`, the
slot storage, the free-index list, and the construction-time timeout in
milliseconds.  The mutex and condition variable have no sequential
content and are not part of the state. -/
structure MessagePool where
  poolSize_ : Nat
  storage_ : List NetworkMessage
  freeList_ : List Nat
  timeout_ : Nat
deriving Repr, DecidableEq

/-- The two `std::runtime_error`s the pool throws:
`"Timeout waiting for available message"` (borrow, line 31) and
`"Invalid message ID"` (release, line 45). -/
inductive PoolError where
  | timeoutWaiting
  | invalidMessageID
deriving Repr, DecidableEq

/-- The slot the constructor allocates for index `i` (lines 19-20):
`std::make_unique<NetworkMessage>()` value-initialises the object
(zeroed payload), then `msg->id = static_cast<int>(i)`. -/
def mkSlot (i : Nat) : NetworkMessage :=
  { id := Int.ofNat i, data := List.replicate 256 0 }

/-- `MessagePool::MessagePool(size_t poolSize, std::chrono::milliseconds
timeout)` (lines 15-24): stores `poolSize` and `timeout`, pushes a slot
with identity `i` into `storage_` and the index `i` into `freeList_`
for each `i < poolSize`.  There is no validation of `poolSize`. -/
def MessagePool.newWithTimeout (poolSize : Nat) (timeout : Nat) : MessagePool :=
  { poolSize_ := poolSize
  , storage_ := (List.range poolSize).map mkSlot
  , freeList_ := List.range poolSize
  , timeout_ := timeout }

/-- Construction with the defaulted second argument
`std::chrono::milliseconds(100)` (line 15). -/
def MessagePool.new (poolSize : Nat) : MessagePool :=
  MessagePool.newWithTimeout poolSize 100

/-- `MessagePool::borrow()` (lines 26-37).  Under the lock it waits for
`!freeList_.empty()` up to `timeout_` and throws on timeout; otherwise
it removes the front index of `freeList_` and returns the pointer
`storage_[index].get()`, modelled by the slot index. -/
def MessagePool.borrow (p : MessagePool) : Except PoolError Nat × MessagePool :=
  match p.freeList_ with
  | [] => (Except.error PoolError.timeoutWaiting, p)
  | index :: rest => (Except.ok index, { p with freeList_ := rest })

/-- `MessagePool::release(NetworkMessage* msg)` (lines 39-51).  A null
pointer returns immediately; then `msg->id < 0 ||
static_cast<size_t>(msg->id) >= poolSize_` throws (the nested `if`
mirrors the short-circuit, so the `size_t` cast is only taken on a
non-negative id); otherwise the id is pushed at the back of
`freeList_`. -/
def MessagePool.release (p : MessagePool) (msg : Option NetworkMessage) :
    Except PoolError Unit × MessagePool :=
  match msg with
  | none => (Except.ok (), p)
  | some m =>
    if m.id < 0 then (Except.error PoolError.invalidMessageID, p)
    else if p.poolSize_ ≤ m.id.toNat then (Except.error PoolError.invalidMessageID, p)
    else (Except.ok (), { p with freeList_ := p.freeList_ ++ [m.id.toNat] })

/-- `MessagePool::available()` (lines 53-56): `freeList_.size()`. -/
def MessagePool.available (p : MessagePool) : Nat :=
  p.freeList_.length

/-- `MessagePool::capacity()` (line 58): `poolSize_`. -/
def MessagePool.capacity (p : MessagePool) : Nat :=
  p.poolSize_

/-- The duration `borrow` passes to `cv_.wait_for` (line 30): the field
`timeout_` fixed at construction.  `borrow()` takes no arguments, so
the wait duration is a function of the pool alone. -/
def MessagePool.borrowWaitDuration (p : MessagePool) : Nat :=
  p.timeout_

/-- One pool operation at a quiescent point, under well-matched usage.
`out` tracks the identities of currently-outstanding slots: a
successful `borrow` of index `i` adds `i`, and a release of the handle
`storage_[i].get()` obtained from that borrow (modelled as
`storage_[i]?`, `none` standing for a null pointer when out of bounds)
removes it.  A timed-out borrow and a null release are also steps. -/
inductive Step : MessagePool × List Nat → MessagePool × List Nat → Prop where
  | borrowOk (p p' : MessagePool) (out : List Nat) (i : Nat) :
      p.borrow = (Except.ok i, p') → Step (p, out) (p', i :: out)
  | borrowTimeout (p p' : MessagePool) (out : List Nat) :
      p.borrow = (Except.error PoolError.timeoutWaiting, p') →
      Step (p, out) (p', out)
  | releaseOut (p p' : MessagePool) (out : List Nat) (i : Nat) :
      i ∈ out → p.release p.storage_[i]? = (Except.ok (), p') →
      Step (p, out) (p', out.erase i)
  | releaseNull (p p' : MessagePool) (out : List Nat) :
      p.release none = (Except.ok (), p') → Step (p, out) (p', out)

/-- States reachable from a freshly constructed pool of capacity `n`
with no outstanding slots, by any sequence of well-matched steps. -/
inductive Reachable (n : Nat) : MessagePool × List Nat → Prop where
  | init : Reachable n (MessagePool.new n, [])
  | step (s s' : MessagePool × List Nat) :
      Reachable n s → Step s s' → Reachable n s'

/-- The pool invariant maintained along well-matched traces: the size
field is the construction capacity, storage still holds the `n`
constructed slots, and the free list and the outstanding list are
duplicate-free disjoint subsets of `[0, n)` whose sizes sum to `n`. -/
structure Inv (n : Nat) (p : MessagePool) (out : List Nat) : Prop where
  size_eq : p.poolSize_ = n
  storage_eq : p.storage_ = (List.range n).map mkSlot
  free_lt : ∀ i ∈ p.freeList_, i < n
  free_nodup : p.freeList_.Nodup
  out_lt : ∀ i ∈ out, i < n
  out_nodup : out.Nodup
  disj : ∀ i, i ∈ p.freeList_ → i ∈ out → False
  count_eq : p.freeList_.length + out.length = n

theorem new_freeList (n : Nat) : (MessagePool.new n).freeList_ = List.range n :=
  rfl

theorem inv_init (n : Nat) : Inv n (MessagePool.new n) [] := by
  refine ⟨rfl, rfl, ?_, ?_, ?_, List.nodup_nil, ?_, ?_⟩
  · intro i hi
    rw [new_freeList] at hi
    exact List.mem_range.mp hi
  · rw [new_freeList]
    exact List.nodup_range n
  · intro i hi
    cases hi
  · intro i _ hi
    cases hi
  · rw [new_freeList]
    simp

theorem borrow_ok_inv (p p' : MessagePool) (i : Nat)
    (h : p.borrow = (Except.ok i, p')) :
    p.freeList_ = i :: p'.freeList_ ∧ p'.poolSize_ = p.poolSize_ ∧
    p'.storage_ = p.storage_ := by
  cases hfl : p.freeList_ with
  | nil => simp [MessagePool.borrow, hfl] at h
  | cons a l =>
    simp only [MessagePool.borrow, hfl, Prod.mk.injEq, Except.ok.injEq] at h
    obtain ⟨rfl, rfl⟩ := h
    exact ⟨rfl, rfl, rfl⟩

theorem borrow_timeout_inv (p p' : MessagePool)
    (h : p.borrow = (Except.error PoolError.timeoutWaiting, p')) :
    p' = p ∧ p.freeList_ = [] := by
  cases hfl : p.freeList_ with
  | nil =>
    simp only [MessagePool.borrow, hfl, Prod.mk.injEq] at h
    exact ⟨h.2.symm, rfl⟩
  | cons a l => simp [MessagePool.borrow, hfl] at h

theorem storage_lookup (n i : Nat) (p : MessagePool)
    (hst : p.storage_ = (List.range n).map mkSlot) (hi : i < n) :
    p.storage_[i]? = some (mkSlot i) := by
  rw [hst, List.getElem?_map, List.getElem?_range hi]
  rfl

/-- Under the invariant, releasing the handle of an outstanding slot
`i` always succeeds and appends `i` at the tail of the free list. -/
theorem release_outstanding_eq (n i : Nat) (p : MessagePool)
    (hst : p.storage_ = (List.range n).map mkSlot)
    (hsz : p.poolSize_ = n) (hi : i < n) :
    p.release p.storage_[i]? =
      (Except.ok (), { p with freeList_ := p.freeList_ ++ [i] }) := by
  rw [storage_lookup n i p hst hi]
  have hid : (mkSlot i).id = Int.ofNat i := rfl
  have hids : (mkSlot i).id.toNat = i := rfl
  have h0 : ¬ (mkSlot i).id < 0 := by
    rw [hid]
    exact Int.not_lt.mpr (Int.ofNat_nonneg i)
  have h1 : ¬ p.poolSize_ ≤ (mkSlot i).id.toNat := by
    rw [hids, hsz]
    omega
  simp only [MessagePool.release]
  rw [if_neg h0, if_neg h1, hids]

theorem inv_borrow_ok (n : Nat) (p p' : MessagePool) (out : List Nat) (i : Nat)
    (hb : p.borrow = (Except.ok i, p')) (hinv : Inv n p out) :
    Inv n p' (i :: out) := by
  obtain ⟨hfl, hps, hsto⟩ := borrow_ok_inv p p' i hb
  have hi_mem : i ∈ p.freeList_ := by
    rw [hfl]
    exact List.mem_cons_self i _
  have hi_lt : i < n := hinv.free_lt i hi_mem
  have hnodup' : (i :: p'.freeList_).Nodup := by
    rw [← hfl]
    exact hinv.free_nodup
  refine ⟨hps.trans hinv.size_eq, hsto.trans hinv.storage_eq, ?_, ?_, ?_, ?_, ?_, ?_⟩
  · intro j hj
    exact hinv.free_lt j (by rw [hfl]; exact List.mem_cons_of_mem _ hj)
  · exact (List.nodup_cons.mp hnodup').2
  · intro j hj
    rcases List.mem_cons.mp hj with rfl | hj
    · exact hi_lt
    · exact hinv.out_lt j hj
  · refine List.nodup_cons.mpr ⟨?_, hinv.out_nodup⟩
    intro hiout
    exact hinv.disj i hi_mem hiout
  · intro j hjf hjo
    have hjf' : j ∈ p.freeList_ := by
      rw [hfl]
      exact List.mem_cons_of_mem _ hjf
    rcases List.mem_cons.mp hjo with rfl | hjo
    · exact (List.nodup_cons.mp hnodup').1 hjf
    · exact hinv.disj j hjf' hjo
  · have hlen : p.freeList_.length = p'.freeList_.length + 1 := by
      rw [hfl]
      rfl
    have hc := hinv.count_eq
    simp only [List.length_cons]
    omega

theorem inv_release_out (n : Nat) (p p' : MessagePool) (out : List Nat) (i : Nat)
    (hmem : i ∈ out) (hrel : p.release p.storage_[i]? = (Except.ok (), p'))
    (hinv : Inv n p out) : Inv n p' (out.erase i) := by
  have hi : i < n := hinv.out_lt i hmem
  rw [release_outstanding_eq n i p hinv.storage_eq hinv.size_eq hi] at hrel
  have hp' : { p with freeList_ := p.freeList_ ++ [i] } = p' :=
    congrArg Prod.snd hrel
  subst hp'
  have hif : i ∉ p.freeList_ := fun hf => hinv.disj i hf hmem
  refine ⟨hinv.size_eq, hinv.storage_eq, ?_, ?_, ?_, hinv.out_nodup.erase i, ?_, ?_⟩
  · intro j hj
    rcases List.mem_append.mp hj with hj | hj
    · exact hinv.free_lt j hj
    · have := List.mem_singleton.mp hj
      subst this
      exact hi
  · rw [List.nodup_append]
    refine ⟨hinv.free_nodup, List.nodup_singleton i, ?_⟩
    intro a ha hb
    have := List.mem_singleton.mp hb
    subst this
    exact hif ha
  · intro j hj
    exact hinv.out_lt j (List.mem_of_mem_erase hj)
  · intro j hjf hjo
    have hjo' : j ≠ i ∧ j ∈ out := (hinv.out_nodup.mem_erase_iff).mp hjo
    rcases List.mem_append.mp hjf with hjf | hjf
    · exact hinv.disj j hjf hjo'.2
    · have := List.mem_singleton.mp hjf
      exact hjo'.1 this
  · have he : (out.erase i).length = out.length - 1 :=
      List.length_erase_of_mem hmem
    have hpos : 0 < out.length := List.length_pos_of_mem hmem
    have hc := hinv.count_eq
    simp only [List.length_append, List.length_singleton, he]
    omega

theorem reachable_inv (n : Nat) (s : MessagePool × List Nat)
    (h : Reachable n s) : Inv n s.1 s.2 := by
  induction h with
  | init => exact inv_init n
  | step s s' _ hstep ih =>
    cases hstep with
    | borrowOk p p' out i hb => exact inv_borrow_ok n p p' out i hb ih
    | borrowTimeout p p' out hb =>
      obtain ⟨rfl, -⟩ := borrow_timeout_inv p p' hb
      exact ih
    | releaseOut p p' out i hmem hrel =>
      exact inv_release_out n p p' out i hmem hrel ih
    | releaseNull p p' out hrel =>
      have hp : p = p' := congrArg Prod.snd hrel
      subst hp
      exact ih

/-- C2 (counterexample): construction with capacity `0` is not rejected.
The constructor runs no validation, so `MessagePool(0)` produces a pool
object with `capacity() == 0`, `available() == 0`, and empty storage. -/
theorem c2_zero_capacity_counterexample :
    MessagePool.new 0 =
      { poolSize_ := 0, storage_ := [], freeList_ := [], timeout_ := 100 } ∧
    (MessagePool.new 0).capacity = 0 ∧
    (MessagePool.new 0).available = 0 :=
  ⟨rfl, rfl, rfl⟩

/-- C2 (amended): constructing with capacity `0` succeeds - the
constructor has no `InvalidCapacity` (or any) capacity check; the
resulting pool has `capacity() == 0`, `available() == 0` and no slots,
and every `borrow` on it fails with the timeout error, leaving the pool
unchanged. -/
theorem c2_zero_capacity_accepted :
    (MessagePool.new 0).capacity = 0 ∧
    (MessagePool.new 0).available = 0 ∧
    (MessagePool.new 0).storage_.length = 0 ∧
    (MessagePool.new 0).borrow =
      (Except.error PoolError.timeoutWaiting, MessagePool.new 0) :=
  ⟨rfl, rfl, rfl, rfl⟩

/-- C5: when the wait in `borrow` elapses with the free list still empty
(in particular a poll of an exhausted pool), `borrow` fails with the
timeout error, returns no slot, and leaves the pool - in particular its
free list - exactly as it was before the call. -/
theorem c5_timeout_leaves_pool_unchanged (p : MessagePool)
    (h : p.freeList_ = []) :
    p.borrow = (Except.error PoolError.timeoutWaiting, p) := by
  simp [MessagePool.borrow, h]

/-- C5 witness: borrowing the single slot of a fresh capacity-1 pool
empties the free list; the next `borrow` then fails with the timeout
error and leaves the pool unchanged. -/
theorem c5_timeout_leaves_pool_unchanged_witness :
    ((MessagePool.new 1).borrow.2).freeList_ = [] ∧
    ((MessagePool.new 1).borrow.2).borrow =
      (Except.error PoolError.timeoutWaiting, (MessagePool.new 1).borrow.2) :=
  ⟨rfl, c5_timeout_leaves_pool_unchanged ((MessagePool.new 1).borrow.2) rfl⟩

/-- C6: releasing a non-null handle whose identity lies outside
`[0, capacity)` (e.g. identity `-1` or identity `capacity`) fails with
the invalid-message-ID error and leaves the pool - hence its free list
and `available()` - unchanged. -/
theorem c6_out_of_range_release_rejected (p : MessagePool)
    (m : NetworkMessage)
    (h : m.id < 0 ∨ (p.capacity : Int) ≤ m.id) :
    p.release (some m) = (Except.error PoolError.invalidMessageID, p) ∧
    (p.release (some m)).2.available = p.available ∧
    (p.release (some m)).2.freeList_ = p.freeList_ := by
  have hrel : p.release (some m) = (Except.error PoolError.invalidMessageID, p) := by
    by_cases h0 : m.id < 0
    · simp [MessagePool.release, h0]
    · have h1 : p.poolSize_ ≤ m.id.toNat := by
        rcases h with h | h
        · omega
        · simp only [MessagePool.capacity] at h
          omega
      simp [MessagePool.release, h0, h1]
  exact ⟨hrel, by rw [hrel], by rw [hrel]⟩

/-- C6 witness: on a capacity-2 pool, releasing a handle with identity
`-1` fails with the invalid-message-ID error and leaves the pool
unchanged; likewise for identity `2 == capacity`. -/
theorem c6_out_of_range_release_rejected_witness :
    (MessagePool.new 2).release (some { id := -1, data := [] }) =
      (Except.error PoolError.invalidMessageID, MessagePool.new 2) ∧
    (MessagePool.new 2).release (some { id := 2, data := [] }) =
      (Except.error PoolError.invalidMessageID, MessagePool.new 2) :=
  ⟨(c6_out_of_range_release_rejected (MessagePool.new 2) { id := -1, data := [] }
      (Or.inl (by decide))).1,
   (c6_out_of_range_release_rejected (MessagePool.new 2) { id := 2, data := [] }
      (Or.inr (by decide))).1⟩

/-- C8: neither `borrow` nor `release` touches the slot storage: the
storage vector, and in particular every slot's payload bytes, are
identical before and after any `borrow` or `release` call (no zeroing
or clearing). -/
theorem c8_payload_untouched (p : MessagePool) (msg : Option NetworkMessage) :
    (p.borrow).2.storage_ = p.storage_ ∧
    (p.release msg).2.storage_ = p.storage_ ∧
    (p.borrow).2.storage_.map NetworkMessage.data =
      p.storage_.map NetworkMessage.data ∧
    (p.release msg).2.storage_.map NetworkMessage.data =
      p.storage_.map NetworkMessage.data := by
  have hb : (p.borrow).2.storage_ = p.storage_ := by
    cases h : p.freeList_ <;> simp [MessagePool.borrow, h]
  have hr : (p.release msg).2.storage_ = p.storage_ := by
    cases msg with
    | none => rfl
    | some m =>
      by_cases h0 : m.id < 0
      · simp [MessagePool.release, h0]
      · by_cases h1 : p.poolSize_ ≤ m.id.toNat
        · simp [MessagePool.release, h0, h1]
        · simp [MessagePool.release, h0, h1]
  exact ⟨hb, hr, by rw [hb], by rw [hr]⟩

/-- C10: a pool constructed without an explicit timeout argument stores
100 milliseconds in `timeout_`, and the wait duration `borrow` passes to
`cv_.wait_for` is always the pool's construction-time `timeout_` -
`borrow()` takes no per-call timeout parameter that could override it. -/
theorem c10_default_timeout_100 (n t : Nat) (p : MessagePool) :
    (MessagePool.new n).timeout_ = 100 ∧
    (MessagePool.new n).borrowWaitDuration = 100 ∧
    (MessagePool.newWithTimeout n t).borrowWaitDuration = t ∧
    p.borrowWaitDuration = p.timeout_ :=
  ⟨rfl, rfl, rfl, rfl⟩

/-- C4: FIFO reuse - when the free list is non-empty, `borrow` succeeds,
removing and returning exactly the front element and leaving the rest of
the free list in its relative order, and every successful `release`
appends the released identity at the tail of the free list, leaving all
previously free indices unchanged in order. -/
theorem c4_fifo_order (p : MessagePool) (i : Nat) (rest : List Nat)
    (hfree : p.freeList_ = i :: rest) :
    p.borrow = (Except.ok i, { p with freeList_ := rest }) ∧
    (∀ (m : NetworkMessage) (q : MessagePool),
      p.release (some m) = (Except.ok (), q) →
      q.freeList_ = p.freeList_ ++ [m.id.toNat]) := by
  constructor
  · simp [MessagePool.borrow, hfree]
  · intro m q hrel
    by_cases h0 : m.id < 0
    · simp [MessagePool.release, h0] at hrel
    · by_cases h1 : p.poolSize_ ≤ m.id.toNat
      · simp [MessagePool.release, h0, h1] at hrel
      · simp only [MessagePool.release, h0, h1, if_false, Prod.mk.injEq,
          true_and] at hrel
        rw [← hrel]

/-- C4 witness: on a fresh capacity-2 pool (free list `[0, 1]`),
`borrow` returns slot `0` and leaves free list `[1]`. -/
theorem c4_fifo_order_witness :
    (MessagePool.new 2).borrow =
      (Except.ok 0, { MessagePool.new 2 with freeList_ := [1] }) :=
  (c4_fifo_order (MessagePool.new 2) 0 [1] rfl).1

/-- C7: construction with capacity `n > 0` allocates exactly `n` slots,
the slot stored at index `i` carries identity `i`, the free list is
`[0, 1, ..., n-1]` - all `n` identities, in ascending order - and
immediately after construction `available()` equals `capacity()`. -/
theorem c7_construction_initial_state (n : Nat) (hn : 0 < n) :
    (MessagePool.new n).storage_.length = n ∧
    (∀ i, i < n →
      ((MessagePool.new n).storage_[i]?).map NetworkMessage.id =
        some (Int.ofNat i)) ∧
    (MessagePool.new n).freeList_ = List.range n ∧
    List.Sorted (· < ·) (MessagePool.new n).freeList_ ∧
    (∀ i, i ∈ (MessagePool.new n).freeList_ ↔ i < n) ∧
    (MessagePool.new n).available = (MessagePool.new n).capacity := by
  refine ⟨?_, ?_, rfl, ?_, ?_, ?_⟩
  · simp [MessagePool.new, MessagePool.newWithTimeout]
  · intro i hi
    rw [show (MessagePool.new n).storage_ = (List.range n).map mkSlot from rfl,
      List.getElem?_map, List.getElem?_range hi]
    rfl
  · exact List.sorted_lt_range n
  · intro i
    simp [MessagePool.new, MessagePool.newWithTimeout, List.mem_range]
  · simp [MessagePool.new, MessagePool.newWithTimeout, MessagePool.available,
      MessagePool.capacity]

/-- C7 witness: the spec's concrete scenario at capacity 10. -/
theorem c7_construction_initial_state_witness :
    (MessagePool.new 10).storage_.length = 10 ∧
    (∀ i, i < 10 →
      ((MessagePool.new 10).storage_[i]?).map NetworkMessage.id =
        some (Int.ofNat i)) ∧
    (MessagePool.new 10).freeList_ = List.range 10 ∧
    List.Sorted (· < ·) (MessagePool.new 10).freeList_ ∧
    (∀ i, i ∈ (MessagePool.new 10).freeList_ ↔ i < 10) ∧
    (MessagePool.new 10).available = (MessagePool.new 10).capacity :=
  c7_construction_initial_state 10 (by decide)

/-- C3 (counterexample): on a fresh capacity-1 pool slot `0` is already
in the free set, yet releasing the (non-null) handle to slot `0`
succeeds and appends a duplicate: the free list becomes `[0, 0]`. -/
theorem c3_double_release_counterexample :
    0 ∈ (MessagePool.new 1).freeList_ ∧
    ((MessagePool.new 1).release ((MessagePool.new 1).storage_.get? 0)).1 =
      Except.ok () ∧
    ((MessagePool.new 1).release
      ((MessagePool.new 1).storage_.get? 0)).2.freeList_ = [0, 0] ∧
    ¬ ((MessagePool.new 1).release
      ((MessagePool.new 1).storage_.get? 0)).2.freeList_.Nodup := by
  refine ⟨by decide, rfl, rfl, by decide⟩

/-- C3 (amended): releasing a null handle is a no-op leaving the free
set unchanged, and releasing a handle whose identity is outside
`[0, capacity)` fails with an explicit error leaving the free set
unchanged; but releasing a handle with an in-range identity always
appends that identity at the tail of the free list, even when it is
already present - an in-range double release is not detected and
silently appends a duplicate. -/
theorem c3_invalid_release_behaviour (p : MessagePool) (m : NetworkMessage) :
    p.release none = (Except.ok (), p) ∧
    ((m.id < 0 ∨ (p.capacity : Int) ≤ m.id) →
      p.release (some m) = (Except.error PoolError.invalidMessageID, p)) ∧
    (0 ≤ m.id → m.id < (p.capacity : Int) →
      p.release (some m) =
        (Except.ok (), { p with freeList_ := p.freeList_ ++ [m.id.toNat] })) := by
  refine ⟨rfl, ?_, ?_⟩
  · intro h
    by_cases h0 : m.id < 0
    · simp [MessagePool.release, h0]
    · have h1 : p.poolSize_ ≤ m.id.toNat := by
        rcases h with h | h
        · omega
        · simp only [MessagePool.capacity] at h
          omega
      simp [MessagePool.release, h0, h1]
  · intro hge hlt
    have h0 : ¬ m.id < 0 := by omega
    have h1 : ¬ p.poolSize_ ≤ m.id.toNat := by
      simp only [MessagePool.capacity] at hlt
      omega
    simp [MessagePool.release, h0, h1]

/-- C3 amended witness: double-releasing identity `0` into a fresh
capacity-1 pool succeeds and yields free list `[0, 0]`. -/
theorem c3_invalid_release_behaviour_witness :
    (MessagePool.new 1).release (some (mkSlot 0)) =
      (Except.ok (), { MessagePool.new 1 with freeList_ := [0, 0] }) := by
  have h := (c3_invalid_release_behaviour (MessagePool.new 1) (mkSlot 0)).2.2
    (by decide) (by decide)
  simpa using h

/-- C1: in every state reachable from a freshly constructed pool of
capacity `n` by a well-matched sequence of borrow and release
operations, the free-index list is a duplicate-free subset of `[0, n)`,
`available()` plus the number of currently-outstanding slots equals
`capacity()` (which is `n`), and consequently `available()` never
exceeds `capacity()` (it is a `size_t`, so it cannot go negative). -/
theorem c1_capacity_conservation (n : Nat) (p : MessagePool) (out : List Nat)
    (h : Reachable n (p, out)) :
    (∀ i ∈ p.freeList_, i < n) ∧
    p.freeList_.Nodup ∧
    p.available + out.length = p.capacity ∧
    p.capacity = n ∧
    p.available ≤ p.capacity := by
  have hinv := reachable_inv n (p, out) h
  have hsz : p.poolSize_ = n := hinv.size_eq
  have hc : p.freeList_.length + out.length = n := hinv.count_eq
  refine ⟨hinv.free_lt, hinv.free_nodup, ?_, hsz, ?_⟩
  · show p.freeList_.length + out.length = p.poolSize_
    omega
  · show p.freeList_.length ≤ p.poolSize_
    omega

/-- C1 witness: after one borrow from a fresh capacity-2 pool
(outstanding slots `[0]`), the free list is duplicate-free,
`available() + 1 = capacity()`, and `available() ≤ capacity()`. -/
theorem c1_capacity_conservation_witness :
    ((MessagePool.new 2).borrow.2).freeList_.Nodup ∧
    ((MessagePool.new 2).borrow.2).available + 1 =
      ((MessagePool.new 2).borrow.2).capacity ∧
    ((MessagePool.new 2).borrow.2).available ≤
      ((MessagePool.new 2).borrow.2).capacity := by
  have h := c1_capacity_conservation 2 ((MessagePool.new 2).borrow.2) [0]
    (Reachable.step _ _ Reachable.init
      (Step.borrowOk (MessagePool.new 2) ((MessagePool.new 2).borrow.2) [] 0 rfl))
  exact ⟨h.2.1, h.2.2.1, h.2.2.2.2⟩

/-- C9: in every state reachable by well-matched usage, the slot
storage holds exactly `capacity()` entries and every index in the free
list is strictly below `capacity()`; hence the storage lookup performed
by a successful `borrow` is in bounds, and the returned handle is
non-null (`storage_[i]? = some slot`) with the slot's identity equal to
the index, a value in `[0, capacity)`. -/
theorem c9_borrow_handle_safe (n : Nat) (p : MessagePool) (out : List Nat)
    (h : Reachable n (p, out)) :
    p.storage_.length = p.capacity ∧
    (∀ i ∈ p.freeList_, i < p.capacity) ∧
    (∀ i q, p.borrow = (Except.ok i, q) →
      i < p.storage_.length ∧
      p.storage_[i]? = some (mkSlot i) ∧
      (mkSlot i).id = Int.ofNat i ∧
      i < p.capacity) := by
  have hinv := reachable_inv n (p, out) h
  have hlen : p.storage_.length = n := by
    rw [hinv.storage_eq]
    simp
  have hcap : p.capacity = n := hinv.size_eq
  refine ⟨by rw [hlen, hcap], ?_, ?_⟩
  · intro i hi
    rw [hcap]
    exact hinv.free_lt i hi
  · intro i q hb
    obtain ⟨hfl, -, -⟩ := borrow_ok_inv p q i hb
    have hi_mem : i ∈ p.freeList_ := by
      rw [hfl]
      exact List.mem_cons_self i _
    have hi_lt : i < n := hinv.free_lt i hi_mem
    refine ⟨by rw [hlen]; exact hi_lt, ?_, rfl, by rw [hcap]; exact hi_lt⟩
    exact storage_lookup n i p hinv.storage_eq hi_lt

/-- C9 witness: on a fresh capacity-3 pool, storage holds `capacity()`
slots, and the borrow that returns index `0` is an in-bounds lookup of
a present slot whose identity is `0 < capacity()`. -/
theorem c9_borrow_handle_safe_witness :
    (MessagePool.new 3).storage_.length = (MessagePool.new 3).capacity ∧
    (MessagePool.new 3).storage_[0]? = some (mkSlot 0) ∧
    0 < (MessagePool.new 3).capacity := by
  have h := c9_borrow_handle_safe 3 (MessagePool.new 3) [] Reachable.init
  have h0 := h.2.2 0 ((MessagePool.new 3).borrow.2) rfl
  exact ⟨h.1, h0.2.1, h0.2.2.2⟩

end MessagePoolModel
